import Mathlib

/-!
Shallow embedding of the waba WhatsApp Cloud API client core:
the error taxonomy builder (src/errors.ts), the webhook verifier and
normalizer (src/webhook.ts), the request pipeline response classification
and the broadcast dispatcher (client.ts).

JavaScript runtime values are modelled by `JsVal`; operations that can
throw at runtime (property reads on null/undefined, for-of over a
non-iterable) live in `Except JsErr`.
-/

namespace Waba

/-- A JavaScript runtime value as JSON-like data, with `undefined` and `null`
kept distinct. Numbers are modelled as integers (every number the client
manipulates — vendor codes, HTTP statuses, lengths — is integral). -/
inductive JsVal where
  | undefined
  | nullv
  | boolean (b : Bool)
  | num (n : Int)
  | str (s : String)
  | arr (elems : List JsVal)
  | obj (fields : List (String × JsVal))
deriving Inhabited

/-- A thrown JavaScript exception: a TypeError from the runtime, or an
`Error(msg)` thrown by the library itself. -/
inductive JsErr where
  | typeError (msg : String)
  | errorMsg (msg : String)
deriving DecidableEq

/-- Field lookup on an object literal (keys are unique by construction). -/
def jsGet (fields : List (String × JsVal)) (k : String) : JsVal :=
  match fields.lookup k with
  | some v => v
  | none => .undefined

/-- JS property read `v.k`: throws a TypeError on null/undefined, yields the
field on objects (undefined when absent), and undefined on other values
(none of the property names this client reads exists on primitives or
arrays). -/
def getProp : JsVal → String → Except JsErr JsVal
  | .undefined, k => .error (.typeError ("Cannot read properties of undefined (reading " ++ k ++ ")"))
  | .nullv, k => .error (.typeError ("Cannot read properties of null (reading " ++ k ++ ")"))
  | .obj fs, k => .ok (jsGet fs k)
  | _, _ => .ok .undefined

/-- Property read on a value known not to be nullish (total variant). -/
def getPropD (v : JsVal) (k : String) : JsVal :=
  ((getProp v k).toOption).getD .undefined

/-- JS truthiness. -/
def truthy : JsVal → Bool
  | .undefined => false
  | .nullv => false
  | .boolean b => b
  | .num n => n != 0
  | .str s => !s.isEmpty
  | .arr _ => true
  | .obj _ => true

/-- JS strict equality `===` on the values compared by this client.
On objects and arrays `===` is reference identity; the values this library
compares were built independently, so distinct references compare false. -/
def strictEq : JsVal → JsVal → Bool
  | .undefined, .undefined => true
  | .nullv, .nullv => true
  | .boolean a, .boolean b => a == b
  | .num a, .num b => a == b
  | .str a, .str b => a == b
  | _, _ => false

/-- `Array.isArray`. -/
def isArray : JsVal → Bool
  | .arr _ => true
  | _ => false

/-- `v == null` (loose): true exactly for undefined and null. -/
def nullish : JsVal → Bool
  | .undefined => true
  | .nullv => true
  | _ => false

/-- The `??` operator. -/
def jsNullishCoalesce (a b : JsVal) : JsVal :=
  if nullish a then b else a

/-- The `||` operator (on values, as used in `errors.ts`). -/
def jsOr (a b : JsVal) : JsVal :=
  if truthy a then a else b

mutual

/-- JS `String(v)` / template-literal coercion. -/
def jsToString : JsVal → String
  | .undefined => "undefined"
  | .nullv => "null"
  | .boolean b => cond b "true" "false"
  | .num n => toString n
  | .str s => s
  | .arr xs => String.intercalate "," (jsToStringElems xs)
  | .obj _ => "[object Object]"

/-- Elementwise coercion used by `Array.prototype.toString` (null and
undefined elements render as the empty string). -/
def jsToStringElems : List JsVal → List String
  | [] => []
  | .undefined :: xs => "" :: jsToStringElems xs
  | .nullv :: xs => "" :: jsToStringElems xs
  | x :: xs => jsToString x :: jsToStringElems xs

end

/-- `for (... of v)`: arrays iterate their elements, strings iterate their
characters, everything else throws a TypeError. -/
def jsIterate : JsVal → Except JsErr (List JsVal)
  | .arr xs => .ok xs
  | .str s => .ok (s.toList.map (fun c => .str (String.singleton c)))
  | _ => .error (.typeError "value is not iterable")

-- ── errors.ts ─────────────────────────────────────────────────────────────

/-- The typed API error (`WhatsAppError` of `src/errors.ts`). The runtime
copies `options.message` and `options.code` unchecked, so those fields keep
the `JsVal` type; `title` and `details` are always built through string
templates / `String(...)`, hence real strings. -/
structure WhatsAppError where
  message : JsVal
  code : JsVal
  title : String
  httpStatus : Nat
  details : Option String

/-- `WhatsAppError.fromApiResponse` of `src/errors.ts`:
`err = body?.error || {}` and field-by-field defaulting. -/
def WhatsAppError.fromApiResponse (body : JsVal) (httpStatus : Nat) : WhatsAppError :=
  let optionalError : JsVal :=
    match body with
    | .undefined => .undefined
    | .nullv => .undefined
    | _ => getPropD body "error"
  let err := jsOr optionalError (.obj [])
  { message := jsOr (getPropD err "message") (.str "Unknown WhatsApp API error")
    code := jsOr (getPropD err "code") (.num 0)
    title :=
      if truthy (getPropD err "error_subcode") then
        jsToString (getPropD err "code") ++ "/" ++ jsToString (getPropD err "error_subcode")
      else
        jsToString (jsOr (getPropD err "code") (.str "unknown"))
    httpStatus := httpStatus
    details :=
      if truthy (getPropD err "fbtrace_id") then
        some ("fbtrace_id: " ++ jsToString (getPropD err "fbtrace_id"))
      else
        none }

-- ── webhook.ts: verification ──────────────────────────────────────────────

/-- The `VerifyQuery` interface: the three optional `hub.*` query
parameters (Lean field names stand for the dotted JS keys). -/
structure VerifyQuery where
  hubMode : Option String
  hubVerifyToken : Option String
  hubChallenge : Option String
deriving DecidableEq

/-- `verifyWebhook` of `src/webhook.ts`: echo the challenge iff mode is
literally "subscribe", the token matches, and the challenge is truthy
(a present, non-empty string); otherwise throw. -/
def verifyWebhook (query : VerifyQuery) (verifyToken : String) : Except JsErr String :=
  let mode := query.hubMode
  let token := query.hubVerifyToken
  let challenge := query.hubChallenge
  if mode = some "subscribe" ∧ token = some verifyToken ∧ challenge.getD "" ≠ "" then
    .ok (challenge.getD "")
  else
    .error (.errorMsg "Webhook verification failed")

-- ── webhook.ts: parsing ───────────────────────────────────────────────────

/-- A normalized inbound event (`WebhookEvent` of `src/types.ts`): a closed
tagged union over message / status / error, each carrying the enclosing
value block's metadata. Payload contents are kept as runtime values, as the
TS casts (`msg as InboundMessage` etc.) are type-erased at runtime. -/
inductive WebhookEvent where
  | message (message : JsVal) (contact : JsVal) (metadata : JsVal)
  | status (status : JsVal) (metadata : JsVal)
  | error (errors : List JsVal) (metadata : JsVal)

/-- `isValidPayload` of `src/webhook.ts`. A non-object body (including
null/undefined) fails; so does an array body, whose `object` property is
undefined and hence fails the discriminator check. -/
def isValidPayload (body : JsVal) : Bool :=
  match body with
  | .obj fs =>
      if !(strictEq (jsGet fs "object") (.str "whatsapp_business_account")) then false
      else isArray (jsGet fs "entry")
  | _ => false

/-- The predicate of `contacts.find((c) => c.wa_id === from)`; reading
`c.wa_id` throws when `c` is nullish. -/
def waIdMatches (fromVal : JsVal) (c : JsVal) : Except JsErr Bool := do
  let w ← getProp c "wa_id"
  pure (strictEq w fromVal)

/-- `Array.prototype.find`: first element satisfying the (effectful)
predicate. -/
def findFirst (p : JsVal → Except JsErr Bool) : List JsVal → Except JsErr (Option JsVal)
  | [] => .ok none
  | c :: rest => do
      if (← p c) then pure (some c) else findFirst p rest

/-- The synthetic fallback contact `{profile: {name: ""}, wa_id: from}`. -/
def syntheticContact (fromVal : JsVal) : JsVal :=
  .obj [("profile", .obj [("name", .str "")]), ("wa_id", fromVal)]

/-- `findContact` of `src/webhook.ts`: the matching contact, else the first
contact when the list is non-empty, else a synthetic contact with empty
display name and `wa_id` equal to the message sender. A non-array
`contacts` value has no `.find` method and throws. -/
def findContact (contacts : JsVal) (fromVal : JsVal) : Except JsErr JsVal :=
  match contacts with
  | .arr cs => do
      match ← findFirst (waIdMatches fromVal) cs with
      | some c => pure c
      | none =>
          match cs with
          | c0 :: _ => pure c0
          | [] => pure (syntheticContact fromVal)
  | _ => .error (.typeError "contacts.find is not a function")

/-- The contact `parseWebhook` attaches to a message: the outcome of
`findContact` on the message's `from` field (undefined when the lookup
would throw; only used where it cannot). -/
def resolvedContact (contacts : JsVal) (msg : JsVal) : JsVal :=
  match findContact contacts (getPropD msg "from") with
  | .ok c => c
  | .error _ => .undefined

/-- Spec-side description of contact resolution over a list of (non-nullish)
contacts: the first entry whose `wa_id` strictly equals `f`, else the first
entry, else the synthetic contact. Proved equal to `findContact` below. -/
def contactSpec (cs : List JsVal) (f : JsVal) : JsVal :=
  match cs.find? fun c => strictEq (getPropD c "wa_id") f with
  | some c => c
  | none =>
      match cs with
      | c0 :: _ => c0
      | [] => syntheticContact f

/-- The body of the inner change loop of `parseWebhook`:
`const { value } = change` (throws on a nullish change), the metadata read
(throws on a nullish value), then the three optional sibling sections.
The guard `value.messages && Array.isArray(value.messages)` holds exactly
for arrays, since every array is truthy. -/
def processChange (change : JsVal) : Except JsErr (List WebhookEvent) := do
  let value ← getProp change "value"
  let metadata ← getProp value "metadata"
  let messagesVal ← getProp value "messages"
  let messageEvents ←
    match messagesVal with
    | .arr msgs => do
        let contactsVal ← getProp value "contacts"
        let contacts := jsNullishCoalesce contactsVal (.arr [])
        msgs.mapM (fun msg => do
          let fromVal ← getProp msg "from"
          let contact ← findContact contacts fromVal
          pure (WebhookEvent.message msg contact metadata))
    | _ => pure []
  let statusesVal ← getProp value "statuses"
  let statusEvents :=
    match statusesVal with
    | .arr sts => sts.map (fun st => WebhookEvent.status st metadata)
    | _ => []
  let errorsVal ← getProp value "errors"
  let errorEvents :=
    match errorsVal with
    | .arr errs => if errs.length > 0 then [WebhookEvent.error errs metadata] else []
    | _ => []
  pure (messageEvents ++ statusEvents ++ errorEvents)

/-- The body of the outer entry loop of `parseWebhook`: `entry.changes` is
read (throwing on a nullish entry) and iterated with for-of (throwing when
it is not iterable — e.g. when the entry has no `changes` list). -/
def processEntry (entry : JsVal) : Except JsErr (List WebhookEvent) := do
  let changesVal ← getProp entry "changes"
  let changes ← jsIterate changesVal
  let eventLists ← changes.mapM processChange
  pure eventLists.flatten

/-- `parseWebhook` of `src/webhook.ts`: empty list on an invalid envelope,
otherwise walk every entry and change, accumulating events in document
order. `payload.entry` is an array whenever `isValidPayload` holds. -/
def parseWebhook (body : JsVal) : Except JsErr (List WebhookEvent) :=
  if !isValidPayload body then
    .ok []
  else do
    let entryVal := getPropD body "entry"
    let entries ← jsIterate entryVal
    let eventLists ← entries.mapM processEntry
    pure eventLists.flatten

/-- The standard webhook envelope around a list of entries (used to state
ordering properties of `parseWebhook`). -/
def envelope (entries : List JsVal) : JsVal :=
  .obj [("object", .str "whatsapp_business_account"), ("entry", .arr entries)]

-- ── webhook.ts: signature checking (absent from the shipped sources) ──────

/-- Modelled from the spec: the shipped `src/webhook.ts` snapshot lacks the
`validateSignature` implementation (only its tests, README and the client
re-export reference it). Per the spec (§4.3), it computes the SHA-256 HMAC
of the exact raw body under the secret, hex-encodes it, prefixes it with
"sha256=", and compares to the supplied header using exact string equality,
never throwing. The HMAC primitive belongs to the platform crypto library
and is abstracted as the function argument `hmacSha256Hex`
(secret, body ↦ hex digest). -/
def validateSignature (hmacSha256Hex : String → String → String)
    (rawBody signature appSecret : String) : Bool :=
  signature == "sha256=" ++ hmacSha256Hex appSecret rawBody

/-- Modelled from the spec: the shipped `src/webhook.ts` snapshot lacks the
`parseWebhookWithSignature` implementation. Per the spec (§4.3), it performs
the signature check and, only if it passes, forwards to the normalizer; on
failure it raises an "Invalid webhook signature" error instead of returning
an empty list. JSON decoding of the raw string body is abstracted as the
function argument `jsonDecode`. -/
def parseWebhookWithSignature (hmacSha256Hex : String → String → String)
    (jsonDecode : String → JsVal) (rawBody signature appSecret : String) :
    Except JsErr (List WebhookEvent) :=
  if validateSignature hmacSha256Hex rawBody signature appSecret then
    parseWebhook (jsonDecode rawBody)
  else
    .error (.errorMsg "Invalid webhook signature")

-- ── client.ts: request pipeline response classification ───────────────────

/-- The observable part of a `fetch` response, as consumed by
`WhatsApp.request`: HTTP status, the `content-type` header (null when
absent), and the outcome of attempting to decode the body text as JSON
(`none` when the body is not JSON-decodable, in which case `response.json()`
rejects). -/
structure HttpResponse where
  status : Nat
  contentType : Option String
  jsonBody : Option JsVal

/-- What `WhatsApp.request` resolves with: the decoded JSON result, or the
raw response object for binary (non-JSON) success bodies. -/
inductive RequestResult where
  | json (v : JsVal)
  | raw (resp : HttpResponse)

/-- What `WhatsApp.request` rejects with: the typed `WhatsAppError` built by
the taxonomy builder, or the JSON SyntaxError from `response.json()` on a
successful response whose declared-JSON body is undecodable. -/
inductive RequestError where
  | api (e : WhatsAppError)
  | decodeFailure

/-- Substring search over character lists (an empty needle always occurs). -/
def charsInclude : List Char → List Char → Bool
  | [], sub => sub.isEmpty
  | c :: rest, sub => sub.isPrefixOf (c :: rest) || charsInclude rest sub

/-- `String.prototype.includes`. -/
def strIncludes (s sub : String) : Bool :=
  charsInclude s.toList sub.toList

/-- `Response.ok` of the fetch API: status in [200, 300). -/
def responseOk (status : Nat) : Bool :=
  200 ≤ status && status < 300

/-- The response-classification tail of `WhatsApp.request` (client.ts):
`contentType = headers.get("content-type") || ""`; a non-ok status always
throws the taxonomy error (substituting `{}` when the failure body is not
JSON); an ok status returns decoded JSON for a JSON content type and the
raw response otherwise. The network call itself is abstracted into the
`HttpResponse` argument. -/
def request (resp : HttpResponse) : Except RequestError RequestResult :=
  let contentType := match resp.contentType with | some s => s | none => ""
  if !responseOk resp.status then
    let errorBody := match resp.jsonBody with | some v => v | none => .obj []
    .error (.api (WhatsAppError.fromApiResponse errorBody resp.status))
  else if strIncludes contentType "application/json" then
    match resp.jsonBody with
    | some v => .ok (.json v)
    | none => .error .decodeFailure
  else
    .ok (.raw resp)

-- ── client.ts: broadcast dispatcher ───────────────────────────────────────

/-- One `{ to, result }` entry of `BroadcastResult.succeeded` (Lean reserves
the token `to`, so the recipient field is spelled `to_`). -/
structure Succeeded (R : Type) where
  to_ : String
  result : R

/-- One `{ to, error }` entry of `BroadcastResult.failed`. -/
structure Failed (E : Type) where
  to_ : String
  error : E

/-- `BroadcastResult` of types.ts: the two outcome lists. -/
structure BroadcastResult (R E : Type) where
  succeeded : List (Succeeded R)
  failed : List (Failed E)

/-- The settle-and-append inner loop of `broadcastTemplate`:
`Promise.allSettled` yields one settled outcome per batch element, aligned
with the batch order regardless of completion order; each outcome is pushed
onto the succeeded or failed list. The per-recipient send is abstracted as
a function from recipient to settled outcome. -/
def settleStep (send : String → Except E R)
    (acc : List (Succeeded R) × List (Failed E)) (rcpt : String) :
    List (Succeeded R) × List (Failed E) :=
  match send rcpt with
  | .ok v => (acc.1 ++ [⟨rcpt, v⟩], acc.2)
  | .error e => (acc.1, acc.2 ++ [⟨rcpt, e⟩])

def settleBatch (send : String → Except E R) (batch : List String) :
    List (Succeeded R) × List (Failed E) :=
  batch.foldl (settleStep send) ([], [])

/-- The batch loop of `broadcastTemplate`:
`for (let i = 0; i < recipients.length; i += batchSize)` with
`batch = recipients.slice(i, i + batchSize)`, and a pacing delay between
batches (`i + batchSize < recipients.length && delayMs > 0`). The loop is
given explicit fuel because the source has no guard against a
non-advancing index (`batchSize = 0` loops forever); `none` means the fuel
ran out before the loop exited. Besides the result, the model counts the
pacing delays incurred and the loop iterations executed. -/
def broadcastLoop (send : String → Except E R) (recipients : List String)
    (batchSize delayMs : Nat) :
    Nat → Nat → List (Succeeded R) → List (Failed E) → Nat → Nat →
    Option (BroadcastResult R E × Nat × Nat)
  | 0, _, _, _, _, _ => none
  | fuel + 1, i, succ, fail, delays, iters =>
      if i < recipients.length then
        let batch := (recipients.drop i).take batchSize
        let settled := settleBatch send batch
        let delays' := if i + batchSize < recipients.length && delayMs > 0 then delays + 1 else delays
        broadcastLoop send recipients batchSize delayMs fuel (i + batchSize)
          (succ ++ settled.1) (fail ++ settled.2) delays' (iters + 1)
      else
        some (⟨succ, fail⟩, delays, iters)

/-- `WhatsApp.broadcastTemplate` (client.ts): defaults
`batchSize = options?.batchSize ?? 50`, `delayMs = options?.delayMs ?? 100`,
then the batch loop. Fuel `recipients.length + 1` suffices whenever
`batchSize ≥ 1`, because the index then advances by at least one per
iteration. -/
def broadcastTemplate (send : String → Except E R) (recipients : List String)
    (batchSizeOpt delayMsOpt : Option Nat) : Option (BroadcastResult R E × Nat × Nat) :=
  let batchSize := batchSizeOpt.getD 50
  let delayMs := delayMsOpt.getD 100
  broadcastLoop send recipients batchSize delayMs (recipients.length + 1) 0 [] [] 0 0

/-- Number of batch-loop iterations for `n` recipients at batch size `bs`:
`ceil(n / bs)`. -/
def numBatches (bs n : Nat) : Nat := (n + bs - 1) / bs

/-- Proof-side reformulation of `broadcastLoop` on the suffix of recipients
still to process (the loop reads the recipients only through
`recipients.slice(i, ...)`, i.e. through `recipients.drop i`); proved equal
to `broadcastLoop` below. -/
def broadcastList (send : String → Except E R) (bs d : Nat) :
    Nat → List String → List (Succeeded R) → List (Failed E) → Nat → Nat →
    Option (BroadcastResult R E × Nat × Nat)
  | 0, _, _, _, _, _ => none
  | _ + 1, [], succ, fail, delays, iters => some (⟨succ, fail⟩, delays, iters)
  | fuel + 1, r :: rest, succ, fail, delays, iters =>
      broadcastList send bs d fuel ((r :: rest).drop bs)
        (succ ++ (settleBatch send ((r :: rest).take bs)).1)
        (fail ++ (settleBatch send ((r :: rest).take bs)).2)
        (if bs < (r :: rest).length && d > 0 then delays + 1 else delays)
        (iters + 1)

-- ════════════════════════ Helper lemmas ═══════════════════════════════════

lemma responseOk_iff (s : Nat) : responseOk s = true ↔ (200 ≤ s ∧ s < 300) := by
  simp [responseOk, Bool.and_eq_true, decide_eq_true_eq]

lemma pureOk {α : Type} (a : α) : (pure a : Except JsErr α) = Except.ok a := rfl

lemma bindOk {α β : Type} (a : α) (f : α → Except JsErr β) :
    (Except.ok a >>= f : Except JsErr β) = f a := rfl

lemma bindPure {α β : Type} (a : α) (f : α → Except JsErr β) :
    ((pure a : Except JsErr α) >>= f) = f a := rfl

lemma bindError {α β : Type} (e : JsErr) (f : α → Except JsErr β) :
    ((Except.error e : Except JsErr α) >>= f) = .error e := rfl

lemma getProp_of_not_nullish (v : JsVal) (k : String) (h : nullish v = false) :
    getProp v k = .ok (getPropD v k) := by
  cases v <;> first | rfl | simp [nullish] at h

lemma findFirst_waId (f : JsVal) :
    ∀ cs : List JsVal, (∀ c ∈ cs, nullish c = false) →
      findFirst (waIdMatches f) cs
        = .ok (cs.find? fun c => strictEq (getPropD c "wa_id") f) := by
  intro cs hcs
  induction cs with
  | nil => rfl
  | cons c rest ih =>
      have hc : nullish c = false := hcs c (List.mem_cons_self c rest)
      have hrest : ∀ x ∈ rest, nullish x = false :=
        fun x hx => hcs x (List.mem_cons_of_mem c hx)
      simp only [findFirst, waIdMatches, getProp_of_not_nullish c "wa_id" hc, bindOk, bindPure]
      cases hb : strictEq (getPropD c "wa_id") f with
      | true => simp [hb, List.find?_cons, ih hrest, pureOk]
      | false => simp [hb, List.find?_cons, ih hrest, pureOk]

lemma findContact_arr (cs : List JsVal) (f : JsVal) (h : ∀ c ∈ cs, nullish c = false) :
    findContact (.arr cs) f = .ok (contactSpec cs f) := by
  simp only [findContact, findFirst_waId f cs h, bindOk, bindPure, contactSpec]
  cases hf : cs.find? fun c => strictEq (getPropD c "wa_id") f with
  | some c => simp [hf, pureOk]
  | none => cases cs <;> simp [hf, pureOk]

lemma mapM_messages (metadata : JsVal) (cs : List JsVal)
    (hcs : ∀ c ∈ cs, nullish c = false) :
    ∀ ms : List JsVal, (∀ m ∈ ms, nullish m = false) →
      List.mapM (fun msg => do
          let fromVal ← getProp msg "from"
          let contact ← findContact (.arr cs) fromVal
          pure (WebhookEvent.message msg contact metadata)) ms
        = .ok (ms.map fun m => .message m (resolvedContact (.arr cs) m) metadata) := by
  intro ms hms
  induction ms with
  | nil => rfl
  | cons m rest ih =>
      have hm : nullish m = false := hms m (List.mem_cons_self m rest)
      have hrest : ∀ x ∈ rest, nullish x = false :=
        fun x hx => hms x (List.mem_cons_of_mem m hx)
      rw [List.mapM_cons]
      simp only [getProp_of_not_nullish m "from" hm, bindOk, bindPure,
        findContact_arr cs (getPropD m "from") hcs, ih hrest]
      simp [resolvedContact, findContact_arr cs (getPropD m "from") hcs, pureOk]

lemma mapM_append_except {α β : Type} (f : α → Except JsErr β) :
    ∀ l1 l2 : List α,
      List.mapM f (l1 ++ l2)
        = (do
            let xs ← List.mapM f l1
            let ys ← List.mapM f l2
            pure (xs ++ ys)) := by
  intro l1 l2
  induction l1 with
  | nil =>
      simp only [List.nil_append, List.mapM_nil, bindPure]
      cases h : List.mapM f l2 with
      | ok ys => simp [h]
      | error e => simp [h]
  | cons a l ih =>
      simp only [List.cons_append, List.mapM_cons, ih]
      cases hfa : f a with
      | error e => simp [hfa, bindError]
      | ok b =>
          simp only [hfa, bindOk, bindPure]
          cases h1 : List.mapM f l with
          | error e => simp [bindError]
          | ok xs =>
              cases h2 : List.mapM f l2 with
              | error e => simp [bindOk, bindError]
              | ok ys => simp [bindOk, bindPure]

lemma parseWebhook_envelope (es : List JsVal) :
    parseWebhook (envelope es)
      = (do
          let eventLists ← List.mapM processEntry es
          pure eventLists.flatten) := rfl

lemma processChange_value_block (metadata fieldName : JsVal) (cs ms sts errs : List JsVal)
    (hms : ∀ m ∈ ms, nullish m = false) (hcs : ∀ c ∈ cs, nullish c = false) :
    processChange (.obj [("value", .obj [("metadata", metadata), ("contacts", .arr cs),
        ("messages", .arr ms), ("statuses", .arr sts), ("errors", .arr errs)]),
      ("field", fieldName)])
      = .ok ((ms.map fun m => .message m (resolvedContact (.arr cs) m) metadata)
          ++ (sts.map fun st => .status st metadata)
          ++ (if errs.length > 0 then [.error errs metadata] else [])) := by
  have g1 : getProp (.obj [("value", .obj [("metadata", metadata), ("contacts", .arr cs),
      ("messages", .arr ms), ("statuses", .arr sts), ("errors", .arr errs)]),
      ("field", fieldName)]) "value"
      = .ok (.obj [("metadata", metadata), ("contacts", .arr cs), ("messages", .arr ms),
          ("statuses", .arr sts), ("errors", .arr errs)]) := rfl
  have g2 : getProp (.obj [("metadata", metadata), ("contacts", .arr cs),
      ("messages", .arr ms), ("statuses", .arr sts), ("errors", .arr errs)]) "metadata"
      = .ok metadata := rfl
  have g3 : getProp (.obj [("metadata", metadata), ("contacts", .arr cs),
      ("messages", .arr ms), ("statuses", .arr sts), ("errors", .arr errs)]) "messages"
      = .ok (.arr ms) := rfl
  have g4 : getProp (.obj [("metadata", metadata), ("contacts", .arr cs),
      ("messages", .arr ms), ("statuses", .arr sts), ("errors", .arr errs)]) "contacts"
      = .ok (.arr cs) := rfl
  have g5 : getProp (.obj [("metadata", metadata), ("contacts", .arr cs),
      ("messages", .arr ms), ("statuses", .arr sts), ("errors", .arr errs)]) "statuses"
      = .ok (.arr sts) := rfl
  have g6 : getProp (.obj [("metadata", metadata), ("contacts", .arr cs),
      ("messages", .arr ms), ("statuses", .arr sts), ("errors", .arr errs)]) "errors"
      = .ok (.arr errs) := rfl
  have g7 : jsNullishCoalesce (.arr cs) (.arr []) = .arr cs := rfl
  simp only [processChange, g1, g2, g3, g4, g5, g6, g7, bindOk, bindPure]
  rw [mapM_messages metadata cs hcs ms hms]
  simp only [bindOk, bindPure, pureOk]

lemma append_exchange_perm {α : Type} (A B C D : List α) :
    ((A ++ B) ++ (C ++ D)).Perm ((A ++ C) ++ (B ++ D)) := by
  have p1 : (B ++ (C ++ D)).Perm (C ++ (B ++ D)) := by
    rw [← List.append_assoc, ← List.append_assoc]
    exact List.Perm.append_right D List.perm_append_comm
  rw [List.append_assoc, List.append_assoc]
  exact List.Perm.append_left A p1

lemma settleBatch_go {R E : Type} (send : String → Except E R) :
    ∀ (batch : List String) (s0 : List (Succeeded R)) (f0 : List (Failed E)),
      batch.foldl (settleStep send) (s0, f0)
        = (s0 ++ (settleBatch send batch).1, f0 ++ (settleBatch send batch).2) := by
  intro batch
  induction batch with
  | nil => intro s0 f0; simp [settleBatch]
  | cons r rest ih =>
      intro s0 f0
      simp only [settleBatch, List.foldl_cons, settleStep]
      cases hr : send r with
      | ok v =>
          simp only [hr]
          rw [ih, ih]
          simp [List.append_assoc]
      | error e =>
          simp only [hr]
          rw [ih, ih]
          simp [List.append_assoc]

lemma settleBatch_perm {R E : Type} (send : String → Except E R) :
    ∀ batch : List String,
      (((settleBatch send batch).1.map Succeeded.to_)
        ++ ((settleBatch send batch).2.map Failed.to_)).Perm batch := by
  intro batch
  induction batch with
  | nil => simp [settleBatch]
  | cons r rest ih =>
      simp only [settleBatch, List.foldl_cons, settleStep]
      cases hr : send r with
      | ok v =>
          simp only [hr, List.nil_append]
          rw [settleBatch_go send rest [⟨r, v⟩] []]
          simp only [List.map_append, List.map_cons, List.map_nil, List.nil_append,
            List.cons_append, List.singleton_append]
          exact ih.cons r
      | error e =>
          simp only [hr, List.nil_append]
          rw [settleBatch_go send rest [] [⟨r, e⟩]]
          simp only [List.map_append, List.map_cons, List.map_nil, List.nil_append,
            List.cons_append, List.singleton_append]
          exact List.perm_middle.trans (ih.cons r)

lemma numBatches_zero (bs : Nat) (hb : 1 ≤ bs) : numBatches bs 0 = 0 := by
  unfold numBatches
  apply Nat.div_eq_of_lt
  omega

lemma numBatches_succ (bs n : Nat) (hb : 1 ≤ bs) (hn : 1 ≤ n) :
    numBatches bs n = numBatches bs (n - bs) + 1 := by
  unfold numBatches
  rcases le_or_lt n bs with h | h
  · have h0 : n - bs = 0 := by omega
    have e1 : (n + bs - 1) / bs = 1 := by
      apply Nat.div_eq_of_lt_le <;> omega
    have e2 : (0 + bs - 1) / bs = 0 := Nat.div_eq_of_lt (by omega)
    rw [h0, e1, e2]
  · have hb0 : 0 < bs := by omega
    have l1 : n + bs - 1 = n - bs - 1 + bs + bs := by omega
    have l2 : n - bs + bs - 1 = n - bs - 1 + bs := by omega
    rw [l1, l2, Nat.add_div_right _ hb0, Nat.add_div_right _ hb0]

lemma numBatches_lt (bs n : Nat) (hb : 1 ≤ bs) : numBatches bs n < n + 1 := by
  unfold numBatches
  have h1 : n * 1 ≤ n * bs := Nat.mul_le_mul_left n hb
  have h2 : (n + 1) * bs = n * bs + bs := by ring
  have h3 : n + bs - 1 < (n + 1) * bs := by omega
  exact (Nat.div_lt_iff_lt_mul (by omega)).2 h3

lemma broadcastLoop_eq_list {R E : Type} (send : String → Except E R)
    (recipients : List String) (bs d : Nat) :
    ∀ (fuel i : Nat) (succ : List (Succeeded R)) (fail : List (Failed E))
      (delays iters : Nat),
      broadcastLoop send recipients bs d fuel i succ fail delays iters
        = broadcastList send bs d fuel (recipients.drop i) succ fail delays iters := by
  intro fuel
  induction fuel with
  | zero => intro i succ fail delays iters; rfl
  | succ f ih =>
      intro i succ fail delays iters
      cases hdrop : recipients.drop i with
      | nil =>
          have hge : ¬ i < recipients.length := by
            have h1 : (recipients.drop i).length = recipients.length - i :=
              List.length_drop i recipients
            rw [hdrop] at h1
            simp at h1
            omega
          simp only [broadcastLoop]
          rw [if_neg hge]
          rfl
      | cons r rest =>
          have h1 : (recipients.drop i).length = recipients.length - i :=
            List.length_drop i recipients
          have hlt : i < recipients.length := by
            rw [hdrop] at h1
            simp at h1
            omega
          simp only [broadcastLoop]
          rw [if_pos hlt, hdrop]
          simp only [broadcastList]
          rw [ih]
          have hdd : recipients.drop (i + bs) = (r :: rest).drop bs := by
            rw [← hdrop, List.drop_drop]
          have hgl : (r :: rest).length = recipients.length - i := by
            rw [← hdrop]
            exact List.length_drop i recipients
          have hgb : decide (i + bs < recipients.length)
              = decide (bs < (r :: rest).length) := by
            apply decide_eq_decide.mpr
            rw [hgl]
            omega
          rw [hdd, hgb]

lemma broadcastList_spec {R E : Type} (send : String → Except E R) (bs d : Nat)
    (hb : 1 ≤ bs) :
    ∀ (n : Nat) (l : List String), l.length = n →
      ∀ (fuel : Nat) (succ : List (Succeeded R)) (fail : List (Failed E))
        (delays iters : Nat),
        numBatches bs n + 1 ≤ fuel →
        ∃ S F D,
          broadcastList send bs d fuel l succ fail delays iters
            = some (⟨succ ++ S, fail ++ F⟩, delays + D, iters + numBatches bs n)
          ∧ ((S.map Succeeded.to_) ++ (F.map Failed.to_)).Perm l := by
  intro n
  induction n using Nat.strong_induction_on with
  | _ n ih =>
      intro l hl fuel succ fail delays iters hfuel
      cases l with
      | nil =>
          have hn0 : n = 0 := by simpa using hl.symm
          subst hn0
          cases fuel with
          | zero => simp [numBatches_zero bs hb] at hfuel
          | succ f =>
              refine ⟨[], [], 0, ?_, by simp⟩
              simp [broadcastList, numBatches_zero bs hb]
      | cons r rest =>
          have hn1 : 1 ≤ n := by rw [← hl]; simp
          cases fuel with
          | zero => omega
          | succ f =>
              have hlen2 : ((r :: rest).drop bs).length = n - bs := by
                rw [List.length_drop, hl]
              have hnb : numBatches bs n = numBatches bs (n - bs) + 1 :=
                numBatches_succ bs n hb hn1
              obtain ⟨S2, F2, D2, heq, hperm⟩ := ih (n - bs) (by omega)
                ((r :: rest).drop bs) hlen2 f
                (succ ++ (settleBatch send ((r :: rest).take bs)).1)
                (fail ++ (settleBatch send ((r :: rest).take bs)).2)
                (if bs < (r :: rest).length && d > 0 then delays + 1 else delays)
                (iters + 1) (by omega)
              refine ⟨(settleBatch send ((r :: rest).take bs)).1 ++ S2,
                      (settleBatch send ((r :: rest).take bs)).2 ++ F2,
                      (if bs < (r :: rest).length && d > 0 then 1 else 0) + D2, ?_, ?_⟩
              · have hstep : broadcastList send bs d (f + 1) (r :: rest) succ fail delays iters
                    = broadcastList send bs d f ((r :: rest).drop bs)
                        (succ ++ (settleBatch send ((r :: rest).take bs)).1)
                        (fail ++ (settleBatch send ((r :: rest).take bs)).2)
                        (if bs < (r :: rest).length && d > 0 then delays + 1 else delays)
                        (iters + 1) := rfl
                rw [hstep, heq]
                have hδ : (if bs < (r :: rest).length && d > 0 then delays + 1 else delays) + D2
                    = delays + ((if bs < (r :: rest).length && d > 0 then 1 else 0) + D2) := by
                  by_cases hg : (bs < (r :: rest).length && d > 0) = true
                  · rw [if_pos hg, if_pos hg]
                    omega
                  · rw [if_neg hg, if_neg hg]
                    omega
                have hiter : iters + 1 + numBatches bs (n - bs) = iters + numBatches bs n := by
                  rw [hnb]
                  omega
                rw [hδ, hiter, List.append_assoc, List.append_assoc]
              · have hsp := settleBatch_perm send ((r :: rest).take bs)
                have happ := List.Perm.append hsp hperm
                rw [List.take_append_drop bs (r :: rest)] at happ
                simp only [List.map_append]
                exact (append_exchange_perm _ _ _ _).trans happ

-- ════════════════════════ Claim theorems ══════════════════════════════════

/-- C1, counterexample: `parseWebhook` is claimed never to throw on any input,
in particular not when an entry lacks a `changes` list; but on the concrete
payload `{object: "whatsapp_business_account", entry: [{id: "X"}]}` the
for-of over the undefined `entry.changes` throws a TypeError. -/
theorem parseWebhook_throws_on_entry_without_changes :
    parseWebhook (envelope [.obj [("id", .str "X")]])
      = .error (.typeError "value is not iterable") := rfl

/-- C1, amended: `parseWebhook` never throws on any input rejected by the
envelope check — null, a non-object, a wrong `object` discriminator, or a
missing/non-list `entry` all yield an empty list — but a payload that passes
the envelope check and contains an entry without a `changes` list makes it
throw. -/
theorem parseWebhook_quiet_on_invalid_envelope :
    (∀ body, isValidPayload body = false → parseWebhook body = .ok [])
    ∧ parseWebhook .nullv = .ok []
    ∧ parseWebhook (.obj []) = .ok []
    ∧ parseWebhook (.obj [("object", .str "other")]) = .ok []
    ∧ parseWebhook (.str "not an object") = .ok []
    ∧ (∃ e, parseWebhook (envelope [.obj [("id", .str "X")]]) = .error e) := by
  refine ⟨fun body h => ?_, rfl, rfl, rfl, rfl, ⟨_, rfl⟩⟩
  simp [parseWebhook, h]

theorem parseWebhook_quiet_on_invalid_envelope_witness :
    parseWebhook .nullv = .ok [] :=
  parseWebhook_quiet_on_invalid_envelope.1 .nullv rfl

/-- C9: a handshake whose mode is "subscribe" and whose token matches but
whose challenge is the empty string throws the verification error rather
than returning the empty string — presence is tested by truthiness, so an
empty challenge counts as absent. -/
theorem verifyWebhook_rejects_empty_challenge (t : String) :
    verifyWebhook ⟨some "subscribe", some t, some ""⟩ t
      = .error (.errorMsg "Webhook verification failed") := by
  simp [verifyWebhook]

/-- C7: `verifyWebhook` returns the challenge exactly when the mode is the
literal "subscribe", the supplied token equals the expected token, and a
(truthy) challenge is present; in every other case it throws the
"Webhook verification failed" error. In particular the handshake
`{mode: "subscribe", verify_token: t, challenge: c}` succeeds with `c`
against expected token `t` and fails against a different expected token. -/
theorem verifyWebhook_handshake_check :
    (∀ (q : VerifyQuery) (t c : String),
        verifyWebhook q t = .ok c ↔
          (q.hubMode = some "subscribe" ∧ q.hubVerifyToken = some t ∧
            q.hubChallenge = some c ∧ c ≠ ""))
    ∧ (∀ (q : VerifyQuery) (t : String),
        ¬(q.hubMode = some "subscribe" ∧ q.hubVerifyToken = some t ∧
            q.hubChallenge.getD "" ≠ "") →
          verifyWebhook q t = .error (.errorMsg "Webhook verification failed"))
    ∧ (∀ t c : String, c ≠ "" →
        verifyWebhook ⟨some "subscribe", some t, some c⟩ t = .ok c)
    ∧ (∀ t x c : String, t ≠ x →
        verifyWebhook ⟨some "subscribe", some t, some c⟩ x
          = .error (.errorMsg "Webhook verification failed")) := by
  refine ⟨fun q t c => ?_, fun q t h => ?_, fun t c hc => ?_, fun t x c htx => ?_⟩
  · rcases q with ⟨m, tok, ch⟩
    constructor
    · intro h
      simp only [verifyWebhook] at h
      split at h
      · rename_i hcond
        obtain ⟨h1, h2, h3⟩ := hcond
        rcases ch with _ | s
        · exact absurd rfl h3
        · have hs : s = c := by injection h
          subst hs
          exact ⟨h1, h2, rfl, h3⟩
      · cases h
    · rintro ⟨h1, h2, h3, h4⟩
      subst h3
      simp only [verifyWebhook]
      rw [if_pos ⟨h1, h2, h4⟩]
      rfl
  · simp only [verifyWebhook]
    split
    · rename_i hcond
      exact absurd hcond h
    · rfl
  · simp [verifyWebhook, hc]
  · simp only [verifyWebhook]
    split
    · rename_i hcond
      exact absurd (Option.some.inj hcond.2.1) htx
    · rfl

theorem verifyWebhook_handshake_check_witness :
    verifyWebhook ⟨some "subscribe", some "T", some "C"⟩ "T" = .ok "C"
    ∧ verifyWebhook ⟨some "subscribe", some "T", some "C"⟩ "X"
        = .error (.errorMsg "Webhook verification failed") :=
  ⟨verifyWebhook_handshake_check.2.2.1 "T" "C" (by decide),
   verifyWebhook_handshake_check.2.2.2 "T" "X" "C" (by decide)⟩

/-- C8 (spec-modelled signature check): `validateSignature` returns true
exactly when the header equals "sha256=" followed by the hex HMAC of the
exact raw body under the secret; a header that is the bare hex digest
without the prefix is rejected; and `parseWebhookWithSignature` raises the
"Invalid webhook signature" error (not an empty list) whenever the check
fails. -/
theorem validateSignature_exact_match :
    ∀ (hmacHex : String → String → String) (rawBody signature appSecret : String),
      (validateSignature hmacHex rawBody signature appSecret = true ↔
        signature = "sha256=" ++ hmacHex appSecret rawBody)
      ∧ validateSignature hmacHex rawBody (hmacHex appSecret rawBody) appSecret = false
      ∧ (∀ jsonDecode : String → JsVal,
          validateSignature hmacHex rawBody signature appSecret = false →
            parseWebhookWithSignature hmacHex jsonDecode rawBody signature appSecret
              = .error (.errorMsg "Invalid webhook signature")) := by
  intro hmacHex rawBody signature appSecret
  refine ⟨by simp [validateSignature], ?_, fun jsonDecode h => ?_⟩
  · simp only [validateSignature, beq_eq_false_iff_ne, ne_eq]
    intro h
    have hlen := congrArg String.length h
    rw [String.length_append] at hlen
    have h7 : ("sha256=" : String).length = 7 := rfl
    omega
  · simp [parseWebhookWithSignature, h]

theorem validateSignature_exact_match_witness :
    parseWebhookWithSignature (fun _ _ => "d") (fun _ => .nullv) "body" "bad" "secret"
      = .error (.errorMsg "Invalid webhook signature") :=
  (validateSignature_exact_match (fun _ _ => "d") "body" "bad" "secret").2.2
    (fun _ => .nullv) rfl

/-- C4: the taxonomy builder is total over arbitrary vendor bodies and
derives every field as specified — a body missing every field (or a nullish
or fieldless-error body) yields code 0, title "unknown" and the fallback
message with no details; a fully populated vendor error yields the vendor
message and code, the "code/subcode" title, and "fbtrace_id: …" details; a
vendor error without a sub-code takes the string form of the code as
title. -/
theorem fromApiResponse_field_derivation :
    (∀ st, WhatsAppError.fromApiResponse (.obj []) st
        = ⟨.str "Unknown WhatsApp API error", .num 0, "unknown", st, none⟩)
    ∧ (∀ st, WhatsAppError.fromApiResponse .nullv st
        = ⟨.str "Unknown WhatsApp API error", .num 0, "unknown", st, none⟩)
    ∧ (∀ st, WhatsAppError.fromApiResponse (.obj [("error", .obj [])]) st
        = ⟨.str "Unknown WhatsApp API error", .num 0, "unknown", st, none⟩)
    ∧ (∀ (st : Nat) (c sc : Int) (m t : String), c ≠ 0 → sc ≠ 0 → m ≠ "" → t ≠ "" →
        WhatsAppError.fromApiResponse (.obj [("error", .obj [("message", .str m),
            ("code", .num c), ("error_subcode", .num sc), ("fbtrace_id", .str t)])]) st
          = ⟨.str m, .num c, toString c ++ "/" ++ toString sc, st,
              some ("fbtrace_id: " ++ t)⟩)
    ∧ (∀ (st : Nat) (c : Int) (m : String), c ≠ 0 → m ≠ "" →
        WhatsAppError.fromApiResponse
            (.obj [("error", .obj [("message", .str m), ("code", .num c)])]) st
          = ⟨.str m, .num c, toString c, st, none⟩) := by
  refine ⟨fun st => rfl, fun st => rfl, fun st => rfl,
    fun st c sc m t hc hsc hm ht => ?_, fun st c m hc hm => ?_⟩
  · have hmi : m.isEmpty = false := by
      rcases hb : m.isEmpty
      · rfl
      · exact absurd ((String.isEmpty_iff m).1 hb) hm
    have hti : t.isEmpty = false := by
      rcases hb : t.isEmpty
      · rfl
      · exact absurd ((String.isEmpty_iff t).1 hb) ht
    have hci : (c != 0) = true := bne_iff_ne.mpr hc
    have hsci : (sc != 0) = true := bne_iff_ne.mpr hsc
    have e1 : WhatsAppError.fromApiResponse (.obj [("error", .obj [("message", .str m),
        ("code", .num c), ("error_subcode", .num sc), ("fbtrace_id", .str t)])]) st
        = { message := jsOr (.str m) (.str "Unknown WhatsApp API error")
            code := jsOr (.num c) (.num 0)
            title := if truthy (.num sc) = true then
                jsToString (.num c) ++ "/" ++ jsToString (.num sc)
              else jsToString (jsOr (.num c) (.str "unknown"))
            httpStatus := st
            details := if truthy (.str t) = true then
                some ("fbtrace_id: " ++ jsToString (.str t))
              else none } := rfl
    rw [e1]
    simp [jsOr, truthy, jsToString, hmi, hti, hci, hsci]
  · have hmi : m.isEmpty = false := by
      rcases hb : m.isEmpty
      · rfl
      · exact absurd ((String.isEmpty_iff m).1 hb) hm
    have hci : (c != 0) = true := bne_iff_ne.mpr hc
    have e1 : WhatsAppError.fromApiResponse
        (.obj [("error", .obj [("message", .str m), ("code", .num c)])]) st
        = { message := jsOr (.str m) (.str "Unknown WhatsApp API error")
            code := jsOr (.num c) (.num 0)
            title := jsToString (jsOr (.num c) (.str "unknown"))
            httpStatus := st
            details := none } := rfl
    rw [e1]
    simp [jsOr, truthy, jsToString, hmi, hci]

theorem fromApiResponse_field_derivation_witness :
    WhatsAppError.fromApiResponse (.obj [("error", .obj [("message", .str "boom"),
        ("code", .num 131030), ("error_subcode", .num 2494010),
        ("fbtrace_id", .str "abc123")])]) 400
      = ⟨.str "boom", .num 131030, "131030/2494010", 400, some "fbtrace_id: abc123"⟩ :=
  fromApiResponse_field_derivation.2.2.2.1 400 131030 2494010 "boom" "abc123"
    (by decide) (by decide) (by decide) (by decide)

/-- C3: the request pipeline classifies every HTTP response as follows — a
status outside [200, 300) always throws the typed error built by the
taxonomy builder (substituting an empty object when the failure body is not
JSON-decodable), regardless of the body; a success status with a JSON
content type returns the decoded body; a success status with a non-JSON
content type returns the raw response. -/
theorem request_response_classification :
    ∀ resp : HttpResponse,
      (¬(200 ≤ resp.status ∧ resp.status < 300) →
          request resp = .error (.api (WhatsAppError.fromApiResponse
            (resp.jsonBody.getD (.obj [])) resp.status)))
      ∧ (∀ v : JsVal, (200 ≤ resp.status ∧ resp.status < 300) →
          strIncludes (resp.contentType.getD "") "application/json" = true →
          resp.jsonBody = some v →
            request resp = .ok (.json v))
      ∧ ((200 ≤ resp.status ∧ resp.status < 300) →
          strIncludes (resp.contentType.getD "") "application/json" = false →
            request resp = .ok (.raw resp)) := by
  intro resp
  refine ⟨fun h => ?_, fun v h hct hj => ?_, fun h hct => ?_⟩
  · have hf : responseOk resp.status = false := by
      rcases hb : responseOk resp.status
      · rfl
      · exact absurd ((responseOk_iff _).1 hb) h
    cases hj : resp.jsonBody <;> simp [request, hf, hj, Option.getD]
  · have ht := (responseOk_iff resp.status).2 h
    cases hc : resp.contentType <;>
      simp_all [request, Option.getD]
  · have ht := (responseOk_iff resp.status).2 h
    cases hc : resp.contentType <;>
      simp_all [request, Option.getD]

theorem request_response_classification_witness :
    request ⟨404, some "application/json", none⟩
        = .error (.api (WhatsAppError.fromApiResponse (.obj []) 404))
    ∧ request ⟨200, some "application/json", some (.str "ok")⟩ = .ok (.json (.str "ok"))
    ∧ request ⟨200, some "image/jpeg", none⟩ = .ok (.raw ⟨200, some "image/jpeg", none⟩) :=
  ⟨(request_response_classification ⟨404, some "application/json", none⟩).1 (by decide),
   (request_response_classification ⟨200, some "application/json", some (.str "ok")⟩).2.1
     (.str "ok") (by decide) rfl rfl,
   (request_response_classification ⟨200, some "image/jpeg", none⟩).2.2 (by decide) rfl⟩

/-- C5: a valid payload whose single value block carries N messages, M
statuses and an `errors` list yields exactly the N message events followed
by the M status events (each group in source array order) followed by one
error event exactly when the errors list is non-empty — N+M events plus at
most one; and events of earlier entries precede those of later entries
(parsing an appended entry list concatenates the event lists). -/
theorem parseWebhook_event_order_and_count :
    (∀ (entryId fieldName metadata : JsVal) (cs ms sts errs : List JsVal),
      (∀ m ∈ ms, nullish m = false) → (∀ c ∈ cs, nullish c = false) →
      ∃ contactOf : JsVal → JsVal,
        parseWebhook (envelope [.obj [("id", entryId), ("changes", .arr [.obj [
            ("value", .obj [("metadata", metadata), ("contacts", .arr cs),
              ("messages", .arr ms), ("statuses", .arr sts), ("errors", .arr errs)]),
            ("field", fieldName)]])]])
          = .ok ((ms.map fun m => .message m (contactOf m) metadata)
              ++ (sts.map fun st => .status st metadata)
              ++ (if errs.length > 0 then [.error errs metadata] else []))
        ∧ ((ms.map fun m => WebhookEvent.message m (contactOf m) metadata)
              ++ (sts.map fun st => WebhookEvent.status st metadata)
              ++ (if errs.length > 0 then [WebhookEvent.error errs metadata] else [])).length
            = ms.length + sts.length + (if errs.length > 0 then 1 else 0))
    ∧ (∀ (es1 es2 : List JsVal) (l1 l2 : List WebhookEvent),
        parseWebhook (envelope es1) = .ok l1 →
        parseWebhook (envelope es2) = .ok l2 →
        parseWebhook (envelope (es1 ++ es2)) = .ok (l1 ++ l2)) := by
  constructor
  · intro entryId fieldName metadata cs ms sts errs hms hcs
    refine ⟨resolvedContact (.arr cs), ?_, ?_⟩
    · rw [parseWebhook_envelope, List.mapM_cons, List.mapM_nil]
      have hent : processEntry (.obj [("id", entryId), ("changes", .arr [.obj [
          ("value", .obj [("metadata", metadata), ("contacts", .arr cs),
            ("messages", .arr ms), ("statuses", .arr sts), ("errors", .arr errs)]),
          ("field", fieldName)]])])
          = (do
              let eventLists ← List.mapM processChange [.obj [
                ("value", .obj [("metadata", metadata), ("contacts", .arr cs),
                  ("messages", .arr ms), ("statuses", .arr sts), ("errors", .arr errs)]),
                ("field", fieldName)]]
              pure eventLists.flatten) := rfl
      rw [hent, List.mapM_cons, List.mapM_nil,
        processChange_value_block metadata fieldName cs ms sts errs hms hcs]
      simp only [bindOk, bindPure, pureOk]
      simp [List.flatten]
    · by_cases he : errs.length > 0 <;> simp [he] <;> omega
  · intro es1 es2 l1 l2 h1 h2
    rw [parseWebhook_envelope] at h1 h2
    rw [parseWebhook_envelope, mapM_append_except]
    cases k1 : List.mapM processEntry es1 with
    | error e => rw [k1, bindError] at h1; cases h1
    | ok L1 =>
        cases k2 : List.mapM processEntry es2 with
        | error e => rw [k2, bindError] at h2; cases h2
        | ok L2 =>
            rw [k1, bindOk, pureOk] at h1
            rw [k2, bindOk, pureOk] at h2
            have e1 : L1.flatten = l1 := by injection h1
            have e2 : L2.flatten = l2 := by injection h2
            simp only [k1, k2, bindOk, bindPure, pureOk]
            rw [← e1, ← e2, ← List.flatten_append]

theorem parseWebhook_event_order_and_count_witness :
    ∃ contactOf : JsVal → JsVal,
      parseWebhook (envelope [.obj [("id", .str "W"), ("changes", .arr [.obj [
          ("value", .obj [("metadata", .obj []), ("contacts", .arr []),
            ("messages", .arr [.obj [("from", .str "5")]]),
            ("statuses", .arr [.str "s1"]), ("errors", .arr [.str "e1"])]),
          ("field", .str "messages")]])]])
        = .ok (([.obj [("from", .str "5")]].map fun m =>
              WebhookEvent.message m (contactOf m) (.obj []))
            ++ ([.str "s1"].map fun st => WebhookEvent.status st (.obj []))
            ++ (if ([JsVal.str "e1"]).length > 0
                then [WebhookEvent.error [.str "e1"] (.obj [])] else []))
      ∧ (([.obj [("from", .str "5")]].map fun m =>
              WebhookEvent.message m (contactOf m) (.obj []))
            ++ ([.str "s1"].map fun st => WebhookEvent.status st (.obj []))
            ++ (if ([JsVal.str "e1"]).length > 0
                then [WebhookEvent.error [.str "e1"] (.obj [])] else [])).length
          = ([JsVal.obj [("from", .str "5")]]).length + ([JsVal.str "s1"]).length
            + (if ([JsVal.str "e1"]).length > 0 then 1 else 0) :=
  parseWebhook_event_order_and_count.1 (.str "W") (.str "messages") (.obj [])
    [] [.obj [("from", .str "5")]] [.str "s1"] [.str "e1"]
    (by intro m hm; simp at hm; subst hm; rfl)
    (by intro c hc; exact absurd hc (List.not_mem_nil c))

/-- C6: for every message, the resolved contact is the contacts-list entry
whose `wa_id` strictly equals the message's `from` when one exists,
otherwise the first listed contact when the list is non-empty, otherwise the
synthetic contact with empty display name and `wa_id` equal to `from`; and
an absent `contacts` list is treated as empty, so messages then get the
synthetic contact. -/
theorem findContact_resolution_rules :
    (∀ (cs : List JsVal) (f c : JsVal), (∀ x ∈ cs, nullish x = false) →
        cs.find? (fun x => strictEq (getPropD x "wa_id") f) = some c →
        findContact (.arr cs) f = .ok c)
    ∧ (∀ (cs rest : List JsVal) (f c0 : JsVal), (∀ x ∈ cs, nullish x = false) →
        cs.find? (fun x => strictEq (getPropD x "wa_id") f) = none →
        cs = c0 :: rest →
        findContact (.arr cs) f = .ok c0)
    ∧ (∀ f : JsVal, findContact (.arr []) f = .ok (syntheticContact f))
    ∧ (∀ (metadata m : JsVal), nullish m = false →
        processChange (.obj [("value", .obj [("metadata", metadata),
            ("messages", .arr [m])])])
          = .ok [.message m (syntheticContact (getPropD m "from")) metadata]) := by
  refine ⟨fun cs f c hx hf => ?_, fun cs rest f c0 hx hf hcons => ?_, fun f => rfl,
    fun metadata m hm => ?_⟩
  · rw [findContact_arr cs f hx]
    simp [contactSpec, hf]
  · subst hcons
    rw [findContact_arr _ f hx]
    simp [contactSpec, hf]
  · have g1 : getProp (.obj [("value", .obj [("metadata", metadata),
        ("messages", .arr [m])])]) "value"
        = .ok (.obj [("metadata", metadata), ("messages", .arr [m])]) := rfl
    have g2 : getProp (.obj [("metadata", metadata), ("messages", .arr [m])]) "metadata"
        = .ok metadata := rfl
    have g3 : getProp (.obj [("metadata", metadata), ("messages", .arr [m])]) "messages"
        = .ok (.arr [m]) := rfl
    have g4 : getProp (.obj [("metadata", metadata), ("messages", .arr [m])]) "contacts"
        = .ok .undefined := rfl
    have g5 : getProp (.obj [("metadata", metadata), ("messages", .arr [m])]) "statuses"
        = .ok .undefined := rfl
    have g6 : getProp (.obj [("metadata", metadata), ("messages", .arr [m])]) "errors"
        = .ok .undefined := rfl
    have g7 : jsNullishCoalesce .undefined (.arr []) = .arr [] := rfl
    simp only [processChange, g1, g2, g3, g4, g5, g6, g7, bindOk, bindPure, pureOk]
    rw [List.mapM_cons, List.mapM_nil]
    simp only [getProp_of_not_nullish m "from" hm, bindOk, bindPure, pureOk,
      findContact_arr [] (getPropD m "from") (fun x hx => absurd hx (List.not_mem_nil x))]
    simp [contactSpec]

theorem findContact_resolution_rules_witness :
    findContact (.arr [.obj [("wa_id", .str "1")], .obj [("wa_id", .str "2")]]) (.str "2")
        = .ok (.obj [("wa_id", .str "2")])
    ∧ findContact (.arr [.obj [("wa_id", .str "1")], .obj [("wa_id", .str "2")]]) (.str "9")
        = .ok (.obj [("wa_id", .str "1")])
    ∧ processChange (.obj [("value", .obj [("metadata", .obj []),
          ("messages", .arr [.obj [("from", .str "7")]])])])
        = .ok [.message (.obj [("from", .str "7")]) (syntheticContact (.str "7")) (.obj [])] :=
  ⟨findContact_resolution_rules.1 [.obj [("wa_id", .str "1")], .obj [("wa_id", .str "2")]]
      (.str "2") (.obj [("wa_id", .str "2")])
      (by intro x hx; simp at hx; rcases hx with h | h <;> subst h <;> rfl) rfl,
   findContact_resolution_rules.2.1 [.obj [("wa_id", .str "1")], .obj [("wa_id", .str "2")]]
      [.obj [("wa_id", .str "2")]] (.str "9") (.obj [("wa_id", .str "1")])
      (by intro x hx; simp at hx; rcases hx with h | h <;> subst h <;> rfl) rfl rfl,
   findContact_resolution_rules.2.2.2 (.obj []) (.obj [("from", .str "7")]) rfl⟩

/-- C2: the broadcast dispatcher collects every recipient's outcome
independently — the outcome lists always account for every recipient, a
failing send never aborting or dropping the others; and in the concrete
3-recipient single-batch case where exactly the 2nd send fails, the result
has two succeeded entries, one failed entry, and the failed entry's `to`
equal to the 2nd recipient (`Promise.allSettled` aligns outcomes with batch
order regardless of completion order). -/
theorem broadcastTemplate_isolates_failures :
    ∀ (R E : Type) (send : String → Except E R),
      (∀ (recipients : List String) (bs : Nat), 1 ≤ bs →
        ∃ (res : BroadcastResult R E) (delays iters : Nat),
          broadcastTemplate send recipients (some bs) none = some (res, delays, iters)
          ∧ res.succeeded.length + res.failed.length = recipients.length)
      ∧ (∀ (r1 r2 r3 : String) (v1 v3 : R) (e : E),
          send r1 = .ok v1 → send r2 = .error e → send r3 = .ok v3 →
          broadcastTemplate send [r1, r2, r3] none none
            = some (⟨[⟨r1, v1⟩, ⟨r3, v3⟩], [⟨r2, e⟩]⟩, 0, 1)) := by
  intro R E send
  constructor
  · intro recipients bs hbs
    have hfuel : numBatches bs recipients.length + 1 ≤ recipients.length + 1 := by
      have := numBatches_lt bs recipients.length hbs
      omega
    obtain ⟨S, F, D, heq, hperm⟩ := broadcastList_spec send bs 100 hbs
      recipients.length recipients rfl (recipients.length + 1) [] [] 0 0 hfuel
    refine ⟨⟨S, F⟩, D, numBatches bs recipients.length, ?_, ?_⟩
    · show broadcastLoop send recipients bs 100 (recipients.length + 1) 0 [] [] 0 0 = _
      rw [broadcastLoop_eq_list, List.drop_zero, heq]
      simp
    · simpa using hperm.length_eq
  · intro r1 r2 r3 v1 v3 e h1 h2 h3
    have hsb : settleBatch send [r1, r2, r3] = ([⟨r1, v1⟩, ⟨r3, v3⟩], [⟨r2, e⟩]) := by
      simp [settleBatch, settleStep, h1, h2, h3]
    calc broadcastTemplate send [r1, r2, r3] none none
        = broadcastLoop send [r1, r2, r3] 50 100 3 50
            (settleBatch send [r1, r2, r3]).1 (settleBatch send [r1, r2, r3]).2 0 1 := rfl
      _ = broadcastLoop send [r1, r2, r3] 50 100 3 50
            [⟨r1, v1⟩, ⟨r3, v3⟩] [⟨r2, e⟩] 0 1 := by rw [hsb]
      _ = some (⟨[⟨r1, v1⟩, ⟨r3, v3⟩], [⟨r2, e⟩]⟩, 0, 1) := rfl

theorem broadcastTemplate_isolates_failures_witness :
    broadcastTemplate
        (fun r => if r = "b" then (Except.error "boom") else (Except.ok (r ++ "!")))
        ["a", "b", "c"] none none
      = some (⟨[⟨"a", "a!"⟩, ⟨"c", "c!"⟩], [⟨"b", "boom"⟩]⟩, 0, 1) :=
  (broadcastTemplate_isolates_failures String String
      (fun r => if r = "b" then (Except.error "boom") else (Except.ok (r ++ "!")))).2
    "a" "b" "c" "a!" "c!" "boom" rfl rfl rfl

/-- C10: with batchSize ≥ 1 the batch loop terminates after exactly
⌈recipients.length / batchSize⌉ iterations and every recipient appears
exactly once across the succeeded and failed lists (their `to` fields
permute the recipients); an empty recipients list yields empty lists with no
send and no pacing delay; and batchSize ≥ 1 is a genuine precondition — at
batchSize 0 the index never advances, and the loop returns none for every
fuel bound. -/
theorem broadcastTemplate_batch_termination :
    ∀ (R E : Type) (send : String → Except E R) (recipients : List String) (bs d : Nat),
      1 ≤ bs →
      (∃ (res : BroadcastResult R E) (delays : Nat),
        broadcastTemplate send recipients (some bs) (some d)
          = some (res, delays, numBatches bs recipients.length)
        ∧ ((res.succeeded.map Succeeded.to_) ++ (res.failed.map Failed.to_)).Perm recipients)
      ∧ broadcastTemplate send ([] : List String) (some bs) (some d)
          = some (⟨[], []⟩, 0, 0)
      ∧ (∀ (fuel i : Nat) (succ : List (Succeeded R)) (fail : List (Failed E))
          (delays iters : Nat),
          i < recipients.length →
          broadcastLoop send recipients 0 d fuel i succ fail delays iters = none) := by
  intro R E send recipients bs d hb
  refine ⟨?_, rfl, ?_⟩
  · have hfuel : numBatches bs recipients.length + 1 ≤ recipients.length + 1 := by
      have := numBatches_lt bs recipients.length hb
      omega
    obtain ⟨S, F, D, heq, hperm⟩ := broadcastList_spec send bs d hb
      recipients.length recipients rfl (recipients.length + 1) [] [] 0 0 hfuel
    refine ⟨⟨S, F⟩, D, ?_, hperm⟩
    show broadcastLoop send recipients bs d (recipients.length + 1) 0 [] [] 0 0 = _
    rw [broadcastLoop_eq_list, List.drop_zero, heq]
    simp
  · intro fuel
    induction fuel with
    | zero => intro i succ fail delays iters h; rfl
    | succ f ih =>
        intro i succ fail delays iters h
        simp only [broadcastLoop]
        rw [if_pos h]
        exact ih (i + 0) _ _ _ _ h

theorem broadcastTemplate_batch_termination_witness :
    (∃ (res : BroadcastResult String String) (delays : Nat),
      broadcastTemplate (fun r => (Except.ok r : Except String String))
          ["a", "b", "c", "d", "e"] (some 2) (some 0)
        = some (res, delays, numBatches 2 5)
      ∧ ((res.succeeded.map Succeeded.to_) ++ (res.failed.map Failed.to_)).Perm
          ["a", "b", "c", "d", "e"])
    ∧ broadcastTemplate (fun r => (Except.ok r : Except String String)) ([] : List String)
        (some 2) (some 0) = some (⟨[], []⟩, 0, 0)
    ∧ broadcastLoop (fun r => (Except.ok r : Except String String)) ["a"] 0 0 9 0 [] [] 0 0
        = none :=
  ⟨(broadcastTemplate_batch_termination String String
      (fun r => (Except.ok r : Except String String)) ["a", "b", "c", "d", "e"] 2 0
      (by omega)).1,
   (broadcastTemplate_batch_termination String String
      (fun r => (Except.ok r : Except String String)) ["a", "b", "c", "d", "e"] 2 0
      (by omega)).2.1,
   (broadcastTemplate_batch_termination String String
      (fun r => (Except.ok r : Except String String)) ["a"] 2 0
      (by omega)).2.2 9 0 [] [] 0 0 (by simp)⟩

end Waba
